import Mathlib

/-!
Verification of the slot-reservation and notification-scheduling core of the
`region23/queue` Telegram queue bot.

The development shallowly embeds the relevant Go code:

* `QueueBot.SQLite` — the componentized slot store
  (`internal/storage/sqlite/sqlite.go`).  A table is a list of rows; each SQL
  conditional `UPDATE ... WHERE` is modelled as a map over the rows together
  with the count of affected rows, exactly mirroring the `WHERE` clause.
* `QueueBot.Memory` — the in-memory notification scheduler
  (`internal/scheduler/memory/scheduler.go`).  The `map[int]*time.Timer`
  registry is modelled as an association list from slot id to the timer's
  absolute fire instant; `sync.Once` is modelled by a `stopCalled` flag.
* `QueueBot.Service` — the booking service orchestration
  (`internal/bot/service`, `Service.ReserveSlot` and
  `ReschedulePendingNotifications`).
* `QueueBot.App` — the `tgbotapi`-based application variant
  (`main.go` `handleCancelCallback` together with `database.go` `CancelSlot`).

Side effects at the collaborator boundary (Telegram sends, timer discards,
storage calls) are recorded as an explicit `Action` trace so that ordering
claims ("delete the registry entry before invoking the sender") become
statements about the emitted trace.
-/

namespace QueueBot

/-- Slot row, from `internal/storage/models` (`Slot` struct): id, date,
start time, end time, nullable owner chat id (`null` means free) and the
notified flag.  The `created_at`/`updated_at` timestamps are omitted: no
claim mentions them and no conditional update tests them. -/
structure Slot where
  id : Int
  date : String
  startTime : String
  endTime : String
  userChatID : Option Int
  notified : Bool
deriving DecidableEq, Repr

/-- One observable side effect at a collaborator boundary. -/
inductive Action where
  /-- the notification sender performs the Telegram send to `chatID` -/
  | deliver (chatID : Int) (text : String)
  /-- storage call `UPDATE slots SET notified = 1 WHERE id = slotID` -/
  | markNotified (slotID : Int)
  /-- the timer registry entry for `slotID` is stopped and removed -/
  | discardTimer (slotID : Int)
  /-- storage call cancelling the reservation of `slotID` held by `userID` -/
  | storeCancel (slotID userID : Int)
  /-- a call to the notification scheduler's `Cancel` for `slotID` -/
  | schedCancel (slotID : Int)
  /-- a call to the notification scheduler's `Schedule` for `slotID` -/
  | schedSchedule (slotID : Int) (notifyAt : Int)
  /-- an asynchronous `go handleNotification(slot)` spawned for `slotID` -/
  | fireAsync (slotID : Int)
  /-- a plain Telegram message sent to `chatID` -/
  | sendMessage (chatID : Int) (text : String)
  /-- deletion of the inline-keyboard Telegram message -/
  | deleteMessage
deriving DecidableEq, Repr

namespace SQLite

/-- The `slots` table of the componentized store: a list of rows. -/
abbrev Table := List Slot

/-- Effect of `UPDATE slots SET user_chat_id = ? WHERE id = ? AND
user_chat_id IS NULL` on a single row. -/
def reserveRow (slotID chatID : Int) (r : Slot) : Slot :=
  if r.id = slotID ∧ r.userChatID = none then { r with userChatID := some chatID } else r

/-- `SQLiteStorage.ReserveSlot` (sqlite.go): runs the conditional update and
returns the error `"slot is not available or does not exist"` exactly when no
row was affected.  The result is the table after the update together with the
Go error value (`none` = `nil`). -/
def ReserveSlot (tbl : Table) (slotID chatID : Int) : Table × Option String :=
  let affected := tbl.countP fun r => decide (r.id = slotID ∧ r.userChatID = none)
  let tbl' := tbl.map (reserveRow slotID chatID)
  if affected = 0 then (tbl', some "slot is not available or does not exist")
  else (tbl', none)

/-- Effect of `UPDATE slots SET user_chat_id = NULL, notified = 0 WHERE
id = ? AND user_chat_id = ?` on a single row. -/
def cancelRow (slotID chatID : Int) (r : Slot) : Slot :=
  if r.id = slotID ∧ r.userChatID = some chatID then
    { r with userChatID := none, notified := false }
  else r

/-- `SQLiteStorage.CancelSlot` (sqlite.go): conditional update resetting owner
and notified flag; errors with `"slot not found or not belongs to user"` when
no row was affected. -/
def CancelSlot (tbl : Table) (slotID chatID : Int) : Table × Option String :=
  let affected := tbl.countP fun r => decide (r.id = slotID ∧ r.userChatID = some chatID)
  let tbl' := tbl.map (cancelRow slotID chatID)
  if affected = 0 then (tbl', some "slot not found or not belongs to user")
  else (tbl', none)

/-- `SQLiteStorage.MarkSlotNotified` (sqlite.go):
`UPDATE slots SET notified = 1 WHERE id = ?`; always returns `nil`. -/
def MarkSlotNotified (tbl : Table) (slotID : Int) : Table × Option String :=
  (tbl.map fun r => if r.id = slotID then { r with notified := true } else r, none)

/-- `SQLiteStorage.GetPendingNotifications` (sqlite.go):
`SELECT ... WHERE user_chat_id IS NOT NULL AND notified = 0`. -/
def GetPendingNotifications (tbl : Table) : List Slot :=
  tbl.filter fun r => decide (r.userChatID ≠ none ∧ r.notified = false)

/-- `SQLiteStorage.GetSlotByID` (sqlite.go): `SELECT ... WHERE id = ?` via
`QueryRow`, returning the first matching row. -/
def GetSlotByID (tbl : Table) (slotID : Int) : Option Slot :=
  tbl.find? fun r => decide (r.id = slotID)

/-- The `id INTEGER PRIMARY KEY` constraint of the `slots` table: row ids are
pairwise distinct. -/
abbrev idsNodup (tbl : Table) : Prop :=
  (tbl.map Slot.id).Nodup

/-- A sequence of `ReserveSlot` calls on the same slot, one per user in
order, threading the table through and collecting each call's error value. -/
def reserveSeq (tbl : Table) (slotID : Int) : List Int → Table × List (Option String)
  | [] => (tbl, [])
  | u :: us =>
    let p := ReserveSlot tbl slotID u
    let q := reserveSeq p.1 slotID us
    (q.1, p.2 :: q.2)

end SQLite

namespace Memory

/-- State of `MemoryScheduler` (internal/scheduler/memory/scheduler.go).
The `timers map[int]*time.Timer` registry is an association list from slot id
to the timer's absolute fire instant (a `*time.Timer` handle is determined,
for the purposes of the claims, by when it will fire).  `stopped` is the
`stopped` field; `stopCalled` records whether `stopOnce.Do` has already run. -/
structure SchedState where
  timers : List (Int × Int)
  stopped : Bool
  stopCalled : Bool
deriving DecidableEq, Repr

/-- `NewMemoryScheduler`: empty registry, accepting. -/
def initSched : SchedState := ⟨[], false, false⟩

/-- Number of registry entries whose key is `k`. -/
def keyCount (l : List (Int × Int)) (k : Int) : Nat :=
  l.countP fun p => decide (p.1 = k)

/-- Removal of the registry entry for key `k` (`timer.Stop(); delete(s.timers, slot.ID)`). -/
def eraseKey (l : List (Int × Int)) (k : Int) : List (Int × Int) :=
  l.filter fun p => decide (p.1 ≠ k)

/-- `MemoryScheduler.Schedule` (scheduler.go): fails with
`"scheduler is stopped"` when stopped; otherwise stops and removes any
existing timer for `slot.ID`, computes `delay := notifyAt - now`
(`time.Until`), fires immediately via `go handleNotification(slot)` when
`delay ≤ 0`, and otherwise installs a timer firing at `notifyAt`.  Returns
the new state, the Go error value and the trace of spawned work. -/
def Schedule (s : SchedState) (slot : Slot) (notifyAt now : Int) :
    SchedState × Option String × List Action :=
  if s.stopped then (s, some "scheduler is stopped", [])
  else
    let timers₁ := eraseKey s.timers slot.id
    if notifyAt - now ≤ 0 then
      ({ s with timers := timers₁ }, none, [Action.fireAsync slot.id])
    else
      ({ s with timers := timers₁ ++ [(slot.id, notifyAt)] }, none, [])

/-- `MemoryScheduler.Cancel` (scheduler.go): stops and removes the timer for
`slotID` when one exists; in every case returns `nil`. -/
def Cancel (s : SchedState) (slotID : Int) : SchedState × Option String :=
  ({ s with timers := eraseKey s.timers slotID }, none)

/-- `MemoryScheduler.ReschedulePending` (scheduler.go): stops and deletes
every registered timer and returns `nil`.  The body performs no storage
query and issues no `Schedule` call (its own comment notes the reload logic
is missing). -/
def ReschedulePending (s : SchedState) : SchedState × Option String :=
  ({ s with timers := [] }, none)

/-- `MemoryScheduler.Stop` (scheduler.go): guarded by `stopOnce.Do`; the
first call marks the scheduler stopped and stops and deletes every timer;
the returned `err` variable is never assigned, so `Stop` always returns
`nil`. -/
def Stop (s : SchedState) : SchedState × Option String :=
  if s.stopCalled then (s, none)
  else ({ timers := [], stopped := true, stopCalled := true }, none)

/-- Reminder text composed by `TelegramNotificationSender.SendSlotReminder`
(cmd/server/main.go): `fmt.Sprintf("Ваша очередь подошла! Слот %s %s‑%s.", ...)`. -/
def reminderText (slot : Slot) : String :=
  "Ваша очередь подошла! Слот " ++ slot.date ++ " " ++ slot.startTime ++ "‑" ++ slot.endTime ++ "."

/-- `MemoryScheduler.handleNotification` (scheduler.go): returns at once when
stopped; otherwise deletes the registry entry for `slot.ID` and then calls
`sender.SendSlotReminder`.  The sender (`TelegramNotificationSender`)
errors without sending when the slot has no assigned user and otherwise
performs the Telegram send; `handleNotification` ignores the sender's error.
`deliveryOk` is the outcome of the Telegram send; the Go code swallows it,
so it cannot influence the result.  The function touches no storage. -/
def handleNotification (s : SchedState) (slot : Slot) (deliveryOk : Bool) :
    SchedState × List Action :=
  if s.stopped then (s, [])
  else
    let s₁ := { s with timers := eraseKey s.timers slot.id }
    match slot.userChatID with
    | none => (s₁, [Action.discardTimer slot.id])
    | some chat => (s₁, [Action.discardTimer slot.id, Action.deliver chat (reminderText slot)])

/-- A fired timer at the whole-system level: `handleNotification` runs
against the scheduler state while the slot store is left alone — neither
`handleNotification` nor `TelegramNotificationSender` contains any storage
call, so the table passes through unchanged. -/
def fireTimer (tbl : SQLite.Table) (s : SchedState) (slot : Slot) (deliveryOk : Bool) :
    SQLite.Table × SchedState × List Action :=
  (tbl, handleNotification s slot deliveryOk)

/-- One scheduler API call, for reachability of scheduler states. -/
inductive SchedOp where
  | schedule (slot : Slot) (notifyAt now : Int)
  | cancel (slotID : Int)
  | fire (slot : Slot) (deliveryOk : Bool)
  | reschedulePending
  | stop
deriving Repr

/-- Effect of one API call on the registry state. -/
def step (s : SchedState) : SchedOp → SchedState
  | .schedule slot notifyAt now => (Schedule s slot notifyAt now).1
  | .cancel slotID => (Cancel s slotID).1
  | .fire slot deliveryOk => (handleNotification s slot deliveryOk).1
  | .reschedulePending => (ReschedulePending s).1
  | .stop => (Stop s).1

/-- State reached from `s` by a sequence of API calls. -/
def runFrom (s : SchedState) (ops : List SchedOp) : SchedState :=
  ops.foldl step s

/-- State reached from a fresh scheduler by a sequence of API calls. -/
def run (ops : List SchedOp) : SchedState :=
  runFrom initSched ops

end Memory

/-- Value of a decimal digit character, `none` for a non-digit. -/
def digitVal (c : Char) : Option Nat :=
  if c.isDigit then some (c.toNat - 48) else none

/-- Parse exactly two decimal digits. -/
def parse2 : List Char → Option (Nat × List Char)
  | c₁ :: c₂ :: rest => do
    let d₁ ← digitVal c₁
    let d₂ ← digitVal c₂
    pure (d₁ * 10 + d₂, rest)
  | _ => none

/-- Parse exactly four decimal digits. -/
def parse4 : List Char → Option (Nat × List Char)
  | c₁ :: c₂ :: c₃ :: c₄ :: rest => do
    let d₁ ← digitVal c₁
    let d₂ ← digitVal c₂
    let d₃ ← digitVal c₃
    let d₄ ← digitVal c₄
    pure (((d₁ * 10 + d₂) * 10 + d₃) * 10 + d₄, rest)
  | _ => none

/-- Consume one expected character. -/
def expectChar (c : Char) : List Char → Option (List Char)
  | c' :: rest => if c' = c then some rest else none
  | [] => none

/-- `time.ParseInLocation("2006-01-02 15:04", s, time.Local)`: succeeds
exactly on a well-formed `YYYY-MM-DD HH:MM` string with in-range fields,
yielding the instant the string denotes.  Instants are encoded as an integer
that is strictly monotone in (year, month, day, hour, minute); the exact
calendar arithmetic is immaterial to every claim, which only compare
instants or pass them through. -/
def parseDateTime (s : String) : Option Int := do
  let (y, r₁) ← parse4 s.toList
  let r₂ ← expectChar '-' r₁
  let (mo, r₃) ← parse2 r₂
  let r₄ ← expectChar '-' r₃
  let (d, r₅) ← parse2 r₄
  let r₆ ← expectChar ' ' r₅
  let (h, r₇) ← parse2 r₆
  let r₈ ← expectChar ':' r₇
  let (mi, r₉) ← parse2 r₈
  if r₉ = [] ∧ 1 ≤ mo ∧ mo ≤ 12 ∧ 1 ≤ d ∧ d ≤ 31 ∧ h ≤ 23 ∧ mi ≤ 59 then
    pure (Int.ofNat ((((y * 12 + (mo - 1)) * 31 + (d - 1)) * 24 + h) * 60 + mi))
  else none

namespace Service

/-- Result of one booking-service operation: final store, final scheduler
state, the Go error returned to the caller, and the trace of collaborator
calls. -/
structure SvcResult where
  tbl : SQLite.Table
  sch : Memory.SchedState
  outcome : Option String
  trace : List Action
deriving Repr

/-- `Service.ReserveSlot` (internal/bot/service, part_007): calls the store's
`ReserveSlot` and returns its error on failure; on success loads the slot via
`GetSlotByID` (returning its error on failure), parses
`slot.Date + " " + slot.StartTime`, and calls the scheduler's `Schedule` with
the parsed instant.  A `Schedule` error is only logged — the reservation is
kept and `nil` is returned. -/
def ReserveSlot (tbl : SQLite.Table) (sch : Memory.SchedState)
    (slotID chatID now : Int) : SvcResult :=
  let p := SQLite.ReserveSlot tbl slotID chatID
  match p.2 with
  | some e => ⟨p.1, sch, some e, []⟩
  | none =>
    match SQLite.GetSlotByID p.1 slotID with
    | none => ⟨p.1, sch, some "slot not found", []⟩
    | some slot =>
      match parseDateTime (slot.date ++ " " ++ slot.startTime) with
      | none => ⟨p.1, sch, some "parsing time: invalid format", []⟩
      | some notifyAt =>
        let q := Memory.Schedule sch slot notifyAt now
        ⟨p.1, q.1, none, Action.schedSchedule slot.id notifyAt :: q.2.2⟩

/-- `Service.ReschedulePendingNotifications` (part_007): delegates directly
to the scheduler's `ReschedulePending`; it receives no storage handle and
queries no pending slots. -/
def ReschedulePendingNotifications (sch : Memory.SchedState) :
    Memory.SchedState × Option String :=
  Memory.ReschedulePending sch

end Service

namespace App

/-- A row of the `slots` table of the `tgbotapi` application variant
(database.go): id, start/end instants, nullable owner `user_id` and nullable
`username` (this schema has no `notified` column).  `created_at` is omitted:
no conditional update tests it. -/
structure Row where
  id : Int
  startTime : String
  endTime : String
  userID : Option Int
  username : Option String
deriving DecidableEq, Repr

abbrev Table := List Row

/-- Effect of `UPDATE slots SET user_id = NULL, username = NULL WHERE
id = ? AND user_id = ?` on a single row. -/
def cancelRow (slotID userID : Int) (r : Row) : Row :=
  if r.id = slotID ∧ r.userID = some userID then
    { r with userID := none, username := none }
  else r

/-- `CancelSlot` (database.go): conditional update clearing owner and
username; errors with `"slot not found or not owned by user"` when no row
was affected. -/
def CancelSlot (tbl : Table) (slotID userID : Int) : Table × Option String :=
  let affected := tbl.countP fun r => decide (r.id = slotID ∧ r.userID = some userID)
  let tbl' := tbl.map (cancelRow slotID userID)
  if affected = 0 then (tbl', some "slot not found or not owned by user")
  else (tbl', none)

/-- `App.handleCancelCallback` (main.go, lines 187–200): calls the store's
`CancelSlot`; on failure sends `"Не удалось отменить запись."` and returns;
on success deletes the keyboard message and sends `"❌ Запись отменена."`.
It performs no other call — in particular no scheduler call of any kind. -/
def handleCancelCallback (tbl : Table) (slotID userID chatID : Int) :
    Table × List Action :=
  let p := CancelSlot tbl slotID userID
  match p.2 with
  | some _ =>
    (p.1, [Action.storeCancel slotID userID, Action.sendMessage chatID "Не удалось отменить запись."])
  | none =>
    (p.1, [Action.storeCancel slotID userID, Action.deleteMessage,
           Action.sendMessage chatID "❌ Запись отменена."])

end App

namespace SQLite

theorem reserveRow_pos {slotID chatID : Int} {r : Slot}
    (h : r.id = slotID ∧ r.userChatID = none) :
    reserveRow slotID chatID r = { r with userChatID := some chatID } := by
  unfold reserveRow
  exact if_pos h

theorem reserveRow_neg {slotID chatID : Int} {r : Slot}
    (h : ¬(r.id = slotID ∧ r.userChatID = none)) :
    reserveRow slotID chatID r = r := by
  unfold reserveRow
  exact if_neg h

theorem cancelRow_pos {slotID chatID : Int} {r : Slot}
    (h : r.id = slotID ∧ r.userChatID = some chatID) :
    cancelRow slotID chatID r = { r with userChatID := none, notified := false } := by
  unfold cancelRow
  exact if_pos h

theorem cancelRow_neg {slotID chatID : Int} {r : Slot}
    (h : ¬(r.id = slotID ∧ r.userChatID = some chatID)) :
    cancelRow slotID chatID r = r := by
  unfold cancelRow
  exact if_neg h

theorem reserve_fst (tbl : Table) (slotID chatID : Int) :
    (ReserveSlot tbl slotID chatID).1 = tbl.map (reserveRow slotID chatID) := by
  simp only [ReserveSlot]
  split <;> rfl

theorem reserve_snd (tbl : Table) (slotID chatID : Int) :
    (ReserveSlot tbl slotID chatID).2 =
      if (tbl.countP fun r => decide (r.id = slotID ∧ r.userChatID = none)) = 0
      then some "slot is not available or does not exist" else none := by
  simp only [ReserveSlot]
  split <;> simp_all

theorem cancel_fst (tbl : Table) (slotID chatID : Int) :
    (CancelSlot tbl slotID chatID).1 = tbl.map (cancelRow slotID chatID) := by
  simp only [CancelSlot]
  split <;> rfl

theorem cancel_snd (tbl : Table) (slotID chatID : Int) :
    (CancelSlot tbl slotID chatID).2 =
      if (tbl.countP fun r => decide (r.id = slotID ∧ r.userChatID = some chatID)) = 0
      then some "slot not found or not belongs to user" else none := by
  simp only [CancelSlot]
  split <;> simp_all

theorem reserve_nofree (tbl : Table) (slotID chatID : Int)
    (h : ∀ r ∈ tbl, r.id = slotID → r.userChatID ≠ none) :
    ReserveSlot tbl slotID chatID = (tbl, some "slot is not available or does not exist") := by
  have hc : (tbl.countP fun r => decide (r.id = slotID ∧ r.userChatID = none)) = 0 := by
    rw [List.countP_eq_zero]
    intro r hr
    simp only [decide_eq_true_eq, not_and]
    exact fun h1 h2 => h r hr h1 h2
  have hm : tbl.map (reserveRow slotID chatID) = tbl := by
    have hrow : ∀ r ∈ tbl, reserveRow slotID chatID r = id r := by
      intro r hr
      exact reserveRow_neg fun hmatch => h r hr hmatch.1 hmatch.2
    rw [List.map_congr_left hrow, List.map_id]
  have h1 := reserve_fst tbl slotID chatID
  have h2 := reserve_snd tbl slotID chatID
  rw [hm] at h1
  rw [hc, if_pos rfl] at h2
  exact Prod.ext h1 h2

theorem reserve_success_iff (tbl : Table) (slotID chatID : Int) :
    (ReserveSlot tbl slotID chatID).2 = none ↔
      ∃ r ∈ tbl, r.id = slotID ∧ r.userChatID = none := by
  rw [reserve_snd]
  by_cases hc : (tbl.countP fun r => decide (r.id = slotID ∧ r.userChatID = none)) = 0
  · rw [if_pos hc, List.countP_eq_zero] at *
    simp only [reduceCtorEq, false_iff]
    rintro ⟨r, hr, h1, h2⟩
    exact hc r hr (by simp [h1, h2])
  · rw [if_neg hc]
    simp only [true_iff]
    have := Nat.pos_of_ne_zero hc
    rw [List.countP_pos_iff] at this
    obtain ⟨r, hr, hp⟩ := this
    exact ⟨r, hr, by simpa using hp⟩

theorem reserve_success_nofree_after (tbl : Table) (slotID chatID : Int) :
    ∀ r' ∈ (ReserveSlot tbl slotID chatID).1, r'.id = slotID → r'.userChatID ≠ none := by
  rw [reserve_fst]
  intro r' hr' hid
  obtain ⟨r, hr, rfl⟩ := List.mem_map.mp hr'
  by_cases hmatch : r.id = slotID ∧ r.userChatID = none
  · rw [reserveRow_pos hmatch]
    simp
  · rw [reserveRow_neg hmatch] at hid ⊢
    exact fun hfree => hmatch ⟨hid, hfree⟩

theorem reserveSeq_nofree (tbl : Table) (slotID : Int)
    (h : ∀ r ∈ tbl, r.id = slotID → r.userChatID ≠ none) :
    ∀ users : List Int, reserveSeq tbl slotID users =
      (tbl, users.map fun _ => some "slot is not available or does not exist") := by
  intro users
  induction users with
  | nil => rfl
  | cons u us ih =>
    simp only [reserveSeq, reserve_nofree tbl slotID u h, ih, List.map_cons]

/-- C1: the store's `Reserve(slotID, userID)` is the single conditional
update "set owner = userID where id = slotID and owner is null": it succeeds
iff a row with this id exists and is free; on success the row's owner becomes
the caller; and a sequence of `Reserve` calls on an initially free slot by
distinct users, with no intervening cancel, yields exactly one success, every
other call observing the already-reserved error. -/
theorem reserve_mutual_exclusion (tbl : Table) (slotID chatID : Int)
    (hids : idsNodup tbl) :
    ((ReserveSlot tbl slotID chatID).2 = none ↔
      ∃ r ∈ tbl, r.id = slotID ∧ r.userChatID = none)
    ∧ ((ReserveSlot tbl slotID chatID).2 = none →
        ∀ r' ∈ (ReserveSlot tbl slotID chatID).1, r'.id = slotID →
          r'.userChatID = some chatID)
    ∧ (∀ users : List Int, users ≠ [] → users.Nodup →
        (∃ r ∈ tbl, r.id = slotID ∧ r.userChatID = none) →
        ((reserveSeq tbl slotID users).2.countP fun o => decide (o = none)) = 1
        ∧ ∀ o ∈ (reserveSeq tbl slotID users).2,
            o = none ∨ o = some "slot is not available or does not exist") := by
  refine ⟨reserve_success_iff tbl slotID chatID, ?_, ?_⟩
  · intro hok r' hr' hid
    obtain ⟨r₀, hr₀, hid₀, hfree₀⟩ := (reserve_success_iff tbl slotID chatID).mp hok
    rw [reserve_fst] at hr'
    obtain ⟨r, hr, rfl⟩ := List.mem_map.mp hr'
    by_cases hmatch : r.id = slotID ∧ r.userChatID = none
    · rw [reserveRow_pos hmatch]
    · rw [reserveRow_neg hmatch] at hid ⊢
      have hrid : r.id = slotID := hid
      have : r = r₀ := List.inj_on_of_nodup_map hids hr hr₀ (by rw [hrid, hid₀])
      subst this
      exact absurd ⟨hrid, hfree₀⟩ hmatch
  · intro users hne hnodup hfree
    obtain ⟨u, us, rfl⟩ := List.exists_cons_of_ne_nil hne
    have hok : (ReserveSlot tbl slotID u).2 = none :=
      (reserve_success_iff tbl slotID u).mpr hfree
    have hrest := reserveSeq_nofree (ReserveSlot tbl slotID u).1 slotID
      (reserve_success_nofree_after tbl slotID u) us
    have hseq : (reserveSeq tbl slotID (u :: us)).2 =
        none :: (us.map fun _ => some "slot is not available or does not exist") := by
      simp only [reserveSeq, hrest, hok]
    refine ⟨?_, ?_⟩
    · rw [hseq, List.countP_cons]
      have hz : ((us.map fun _ =>
          (some "slot is not available or does not exist" : Option String)).countP
            fun o => decide (o = none)) = 0 := by
        rw [List.countP_eq_zero]
        intro o ho
        obtain ⟨_, _, rfl⟩ := List.mem_map.mp ho
        simp
      simp [hz]
    · rw [hseq]
      intro o ho
      rcases List.mem_cons.mp ho with h1 | h2
      · exact Or.inl h1
      · obtain ⟨_, _, rfl⟩ := List.mem_map.mp h2
        exact Or.inr rfl

theorem cancel_noowner (tbl : Table) (slotID chatID : Int)
    (h : ∀ r ∈ tbl, ¬(r.id = slotID ∧ r.userChatID = some chatID)) :
    CancelSlot tbl slotID chatID = (tbl, some "slot not found or not belongs to user") := by
  have hc : (tbl.countP fun r => decide (r.id = slotID ∧ r.userChatID = some chatID)) = 0 := by
    rw [List.countP_eq_zero]
    intro r hr
    simp only [decide_eq_true_eq]
    exact h r hr
  have hm : tbl.map (cancelRow slotID chatID) = tbl := by
    have hrow : ∀ r ∈ tbl, cancelRow slotID chatID r = id r := fun r hr => cancelRow_neg (h r hr)
    rw [List.map_congr_left hrow, List.map_id]
  have h1 := cancel_fst tbl slotID chatID
  have h2 := cancel_snd tbl slotID chatID
  rw [hm] at h1
  rw [hc, if_pos rfl] at h2
  exact Prod.ext h1 h2

theorem cancel_success_iff (tbl : Table) (slotID chatID : Int) :
    (CancelSlot tbl slotID chatID).2 = none ↔
      ∃ r ∈ tbl, r.id = slotID ∧ r.userChatID = some chatID := by
  rw [cancel_snd]
  by_cases hc : (tbl.countP fun r => decide (r.id = slotID ∧ r.userChatID = some chatID)) = 0
  · rw [if_pos hc, List.countP_eq_zero] at *
    simp only [reduceCtorEq, false_iff]
    rintro ⟨r, hr, h1, h2⟩
    exact hc r hr (by simp [h1, h2])
  · rw [if_neg hc]
    simp only [true_iff]
    have := Nat.pos_of_ne_zero hc
    rw [List.countP_pos_iff] at this
    obtain ⟨r, hr, hp⟩ := this
    exact ⟨r, hr, by simpa using hp⟩

/-- C7: the store's `Cancel(slotID, userID)` is the conditional update
"set owner = null, notified = false where id = slotID and owner = userID":
it succeeds iff the caller currently owns the slot, on success it resets both
the owner and the notified flag, and whenever the slot is not owned by that
user — including when it is already free — it fails with no rows changed. -/
theorem cancel_conditional_update (tbl : Table) (slotID chatID : Int)
    (hids : idsNodup tbl) :
    ((CancelSlot tbl slotID chatID).2 = none ↔
      ∃ r ∈ tbl, r.id = slotID ∧ r.userChatID = some chatID)
    ∧ ((CancelSlot tbl slotID chatID).2 = none →
        ∀ r' ∈ (CancelSlot tbl slotID chatID).1, r'.id = slotID →
          r'.userChatID = none ∧ r'.notified = false)
    ∧ ((¬∃ r ∈ tbl, r.id = slotID ∧ r.userChatID = some chatID) →
        CancelSlot tbl slotID chatID = (tbl, some "slot not found or not belongs to user")) := by
  refine ⟨cancel_success_iff tbl slotID chatID, ?_, ?_⟩
  · intro hok r' hr' hid
    obtain ⟨r₀, hr₀, hid₀, hown₀⟩ := (cancel_success_iff tbl slotID chatID).mp hok
    rw [cancel_fst] at hr'
    obtain ⟨r, hr, rfl⟩ := List.mem_map.mp hr'
    by_cases hmatch : r.id = slotID ∧ r.userChatID = some chatID
    · rw [cancelRow_pos hmatch]
      exact ⟨rfl, rfl⟩
    · rw [cancelRow_neg hmatch] at hid ⊢
      have hrid : r.id = slotID := hid
      have : r = r₀ := List.inj_on_of_nodup_map hids hr hr₀ (by rw [hrid, hid₀])
      subst this
      exact absurd ⟨hrid, hown₀⟩ hmatch
  · intro hno
    exact cancel_noowner tbl slotID chatID fun r hr hmatch => hno ⟨r, hr, hmatch⟩

/-- Concrete run of C7: the owner cancels a notified reservation — success,
and the row comes back free with the notified flag reset; cancelling the now
free slot fails and changes nothing. -/
theorem cancel_conditional_update_witness :
    (CancelSlot [⟨1, "2025-01-10", "10:00", "10:30", some 7, true⟩] 1 7).2 = none
    ∧ (CancelSlot [⟨1, "2025-01-10", "10:00", "10:30", some 7, true⟩] 1 7).1 =
        [⟨1, "2025-01-10", "10:00", "10:30", none, false⟩]
    ∧ CancelSlot [⟨1, "2025-01-10", "10:00", "10:30", none, false⟩] 1 7 =
        ([⟨1, "2025-01-10", "10:00", "10:30", none, false⟩],
         some "slot not found or not belongs to user") :=
  ⟨(cancel_conditional_update [⟨1, "2025-01-10", "10:00", "10:30", some 7, true⟩] 1 7
      (by decide)).1.mpr ⟨⟨1, "2025-01-10", "10:00", "10:30", some 7, true⟩, by decide⟩,
   by decide,
   (cancel_conditional_update [⟨1, "2025-01-10", "10:00", "10:30", none, false⟩] 1 7
      (by decide)).2.2 (by decide)⟩

/-- C10: reserving a slot id with no row in the table takes the same
"slot is not available or does not exist" branch as reserving an
already-owned slot — same error value, no row modified in either case — so a
caller cannot distinguish a nonexistent slot from a reservation conflict. -/
theorem reserve_notfound_indistinguishable (tbl : Table) (slotID chatID : Int)
    (habsent : ∀ r ∈ tbl, r.id ≠ slotID) :
    ReserveSlot tbl slotID chatID = (tbl, some "slot is not available or does not exist")
    ∧ ∀ tbl₂ slotID₂ chatID₂,
        (∀ r ∈ tbl₂, r.id = slotID₂ → r.userChatID ≠ none) →
        ReserveSlot tbl₂ slotID₂ chatID₂ = (tbl₂, (ReserveSlot tbl slotID chatID).2) := by
  have h1 : ∀ r ∈ tbl, r.id = slotID → r.userChatID ≠ none :=
    fun r hr hid => absurd hid (habsent r hr)
  refine ⟨reserve_nofree tbl slotID chatID h1, ?_⟩
  intro tbl₂ slotID₂ chatID₂ h₂
  rw [reserve_nofree tbl₂ slotID₂ chatID₂ h₂, reserve_nofree tbl slotID chatID h1]

/-- Concrete run of C10: the table holds only slot 2 (owned); reserving the
nonexistent slot 1 and reserving the owned slot 2 return the same error and
leave the table unchanged. -/
theorem reserve_notfound_indistinguishable_witness :
    ReserveSlot [⟨2, "2025-01-10", "10:00", "10:30", some 5, false⟩] 1 7 =
      ([⟨2, "2025-01-10", "10:00", "10:30", some 5, false⟩],
       some "slot is not available or does not exist")
    ∧ ReserveSlot [⟨2, "2025-01-10", "10:00", "10:30", some 5, false⟩] 2 7 =
      ([⟨2, "2025-01-10", "10:00", "10:30", some 5, false⟩],
       some "slot is not available or does not exist") := by
  have h := reserve_notfound_indistinguishable
    [⟨2, "2025-01-10", "10:00", "10:30", some 5, false⟩] 1 7 (by decide)
  refine ⟨h.1, ?_⟩
  have h2 := h.2 [⟨2, "2025-01-10", "10:00", "10:30", some 5, false⟩] 2 7 (by decide)
  rw [h2, h.1]

/-- Concrete run of C1: one free slot, three distinct users reserving in
sequence — exactly one success. -/
theorem reserve_mutual_exclusion_witness :
    ((reserveSeq [⟨1, "2025-01-10", "10:00", "10:30", none, false⟩] 1 [7, 8, 9]).2.countP
      fun o => decide (o = none)) = 1 :=
  ((reserve_mutual_exclusion [⟨1, "2025-01-10", "10:00", "10:30", none, false⟩] 1 7
    (by decide)).2.2 [7, 8, 9] (by decide) (by decide)
    ⟨⟨1, "2025-01-10", "10:00", "10:30", none, false⟩, by decide⟩).1

end SQLite

namespace Memory

theorem keyCount_eraseKey_self (l : List (Int × Int)) (k : Int) :
    keyCount (eraseKey l k) k = 0 := by
  unfold keyCount eraseKey
  rw [List.countP_filter, List.countP_eq_zero]
  intro p _
  simp

theorem keyCount_eraseKey_le (l : List (Int × Int)) (k k' : Int) :
    keyCount (eraseKey l k') k ≤ keyCount l k :=
  List.Sublist.countP_le _ (List.filter_sublist l)

theorem Schedule_fst (s : SchedState) (slot : Slot) (notifyAt now : Int) :
    (Schedule s slot notifyAt now).1 =
      if s.stopped then s
      else if notifyAt - now ≤ 0 then { s with timers := eraseKey s.timers slot.id }
      else { s with timers := eraseKey s.timers slot.id ++ [(slot.id, notifyAt)] } := by
  unfold Schedule
  by_cases h : s.stopped
  · simp [h]
  · by_cases h2 : notifyAt - now ≤ 0 <;> simp [h, h2]

theorem Schedule_err_stopped (s : SchedState) (slot : Slot) (notifyAt now : Int)
    (h : s.stopped = true) :
    (Schedule s slot notifyAt now).2.1 = some "scheduler is stopped" := by
  unfold Schedule
  simp [h]

theorem handleNotification_fst (s : SchedState) (slot : Slot) (deliveryOk : Bool) :
    (handleNotification s slot deliveryOk).1 =
      if s.stopped then s else { s with timers := eraseKey s.timers slot.id } := by
  unfold handleNotification
  by_cases h : s.stopped
  · simp [h]
  · cases hc : slot.userChatID <;> simp [h, hc]

theorem step_atMostOne (s : SchedState) (op : SchedOp)
    (h : ∀ k, keyCount s.timers k ≤ 1) : ∀ k, keyCount (step s op).timers k ≤ 1 := by
  intro k
  cases op with
  | schedule slot notifyAt now =>
    simp only [step, Schedule_fst]
    by_cases h1 : s.stopped
    · simpa [h1] using h k
    · by_cases h2 : notifyAt - now ≤ 0
      · simp only [h1, h2, if_true, if_false, Bool.false_eq_true]
        exact le_trans (keyCount_eraseKey_le s.timers k slot.id) (h k)
      · simp only [h1, h2, if_false, Bool.false_eq_true]
        unfold keyCount
        rw [List.countP_append]
        by_cases hk : slot.id = k
        · subst hk
          have h0 := keyCount_eraseKey_self s.timers slot.id
          unfold keyCount at h0
          rw [h0]
          simp
        · have hle := keyCount_eraseKey_le s.timers k slot.id
          unfold keyCount at hle
          have h0 : (List.countP (fun p => decide (p.1 = k)) [(slot.id, notifyAt)]) = 0 := by
            simp [hk]
          rw [h0]
          simpa using le_trans hle (h k)
  | cancel slotID =>
    simp only [step, Cancel]
    exact le_trans (keyCount_eraseKey_le s.timers k slotID) (h k)
  | fire slot deliveryOk =>
    simp only [step, handleNotification_fst]
    by_cases h1 : s.stopped
    · simpa [h1] using h k
    · simp only [h1, if_false, Bool.false_eq_true]
      exact le_trans (keyCount_eraseKey_le s.timers k slot.id) (h k)
  | reschedulePending =>
    simp [step, ReschedulePending, keyCount]
  | stop =>
    simp only [step, Stop]
    by_cases h1 : s.stopCalled
    · simpa [h1] using h k
    · simp [h1, keyCount]

theorem runFrom_atMostOne (s : SchedState) (h : ∀ k, keyCount s.timers k ≤ 1) :
    ∀ ops : List SchedOp, ∀ k, keyCount (runFrom s ops).timers k ≤ 1 := by
  intro ops
  induction ops generalizing s with
  | nil => exact h
  | cons op rest ih => exact ih (step s op) (step_atMostOne s op h)

/-- C5: in every scheduler state reachable by any sequence of Schedule,
Cancel, fire, ReschedulePending and Stop calls, the registry holds at most
one timer per slot id; `Schedule` removes any existing timer for the slot's
id first, and after a `Schedule` with a future fire time the registry holds
exactly one entry for that key. -/
theorem sched_at_most_one_timer (ops : List SchedOp) (slot : Slot) (notifyAt now : Int)
    (hstop : (run ops).stopped = false) (hfut : 0 < notifyAt - now) :
    (∀ k, keyCount (run ops).timers k ≤ 1)
    ∧ keyCount (Schedule (run ops) slot notifyAt now).1.timers slot.id = 1 := by
  constructor
  · exact runFrom_atMostOne initSched (by intro k; simp [initSched, keyCount]) ops
  · rw [Schedule_fst]
    rw [hstop, if_neg (by simp), if_neg (not_le.mpr hfut)]
    unfold keyCount
    rw [List.countP_append]
    have h0 := keyCount_eraseKey_self (run ops).timers slot.id
    unfold keyCount at h0
    rw [h0]
    simp

/-- Concrete run of C5: after a double re-schedule, a cancel of another id
and a fired timer, slot 1 holds at most one timer; a fresh future `Schedule`
leaves exactly one registry entry for it. -/
theorem sched_at_most_one_timer_witness :
    keyCount (run [SchedOp.schedule ⟨1, "2025-01-10", "10:00", "10:30", some 7, false⟩ 50 0,
                   SchedOp.schedule ⟨1, "2025-01-10", "10:00", "10:30", some 7, false⟩ 60 0,
                   SchedOp.cancel 2]).timers 1 ≤ 1
    ∧ keyCount (Schedule (run [SchedOp.schedule ⟨1, "2025-01-10", "10:00", "10:30", some 7, false⟩ 50 0,
                   SchedOp.schedule ⟨1, "2025-01-10", "10:00", "10:30", some 7, false⟩ 60 0,
                   SchedOp.cancel 2])
        ⟨1, "2025-01-10", "10:00", "10:30", some 7, false⟩ 70 0).1.timers 1 = 1 :=
  ⟨(sched_at_most_one_timer [SchedOp.schedule ⟨1, "2025-01-10", "10:00", "10:30", some 7, false⟩ 50 0,
      SchedOp.schedule ⟨1, "2025-01-10", "10:00", "10:30", some 7, false⟩ 60 0,
      SchedOp.cancel 2] ⟨1, "2025-01-10", "10:00", "10:30", some 7, false⟩ 70 0
      (by decide) (by decide)).1 1,
   (sched_at_most_one_timer [SchedOp.schedule ⟨1, "2025-01-10", "10:00", "10:30", some 7, false⟩ 50 0,
      SchedOp.schedule ⟨1, "2025-01-10", "10:00", "10:30", some 7, false⟩ 60 0,
      SchedOp.cancel 2] ⟨1, "2025-01-10", "10:00", "10:30", some 7, false⟩ 70 0
      (by decide) (by decide)).2⟩

/-- C6: when a timer fires, the registry entry is removed before the sender
is invoked (the discard strictly precedes any delivery in the trace), a
delivery failure is fully swallowed (the result does not depend on the
delivery outcome, and delivery is attempted at most once — no retry), no
timer remains registered for the slot, and the slot store is untouched. -/
theorem fire_discard_before_send (tbl : SQLite.Table) (s : SchedState) (slot : Slot)
    (deliveryOk : Bool) (hrun : s.stopped = false) :
    fireTimer tbl s slot deliveryOk = fireTimer tbl s slot true
    ∧ (fireTimer tbl s slot deliveryOk).1 = tbl
    ∧ keyCount (fireTimer tbl s slot deliveryOk).2.1.timers slot.id = 0
    ∧ ∃ ds, (fireTimer tbl s slot deliveryOk).2.2 = Action.discardTimer slot.id :: ds
        ∧ ds.length ≤ 1
        ∧ ∀ a ∈ ds, ∃ c txt, a = Action.deliver c txt := by
  refine ⟨rfl, rfl, ?_, ?_⟩
  · show keyCount (handleNotification s slot deliveryOk).1.timers slot.id = 0
    rw [handleNotification_fst, hrun, if_neg (by simp)]
    exact keyCount_eraseKey_self s.timers slot.id
  · show ∃ ds, (handleNotification s slot deliveryOk).2 = Action.discardTimer slot.id :: ds ∧ _
    unfold handleNotification
    rw [hrun]
    cases hc : slot.userChatID with
    | none =>
      refine ⟨[], by simp, by simp, by simp⟩
    | some chat =>
      refine ⟨[Action.deliver chat (reminderText slot)], by simp, by simp, ?_⟩
      intro a ha
      rw [List.mem_singleton] at ha
      exact ⟨chat, reminderText slot, ha⟩

/-- Concrete run of C6: a registered timer for an owned slot fires with a
failing delivery — same result as a successful one, store untouched, no
timer left for the slot. -/
theorem fire_discard_before_send_witness :
    fireTimer [⟨1, "2025-01-10", "10:00", "10:30", some 7, false⟩] ⟨[(1, 50)], false, false⟩
        ⟨1, "2025-01-10", "10:00", "10:30", some 7, false⟩ false =
      fireTimer [⟨1, "2025-01-10", "10:00", "10:30", some 7, false⟩] ⟨[(1, 50)], false, false⟩
        ⟨1, "2025-01-10", "10:00", "10:30", some 7, false⟩ true
    ∧ (fireTimer [⟨1, "2025-01-10", "10:00", "10:30", some 7, false⟩] ⟨[(1, 50)], false, false⟩
        ⟨1, "2025-01-10", "10:00", "10:30", some 7, false⟩ false).1 =
      [⟨1, "2025-01-10", "10:00", "10:30", some 7, false⟩]
    ∧ keyCount (fireTimer [⟨1, "2025-01-10", "10:00", "10:30", some 7, false⟩]
        ⟨[(1, 50)], false, false⟩
        ⟨1, "2025-01-10", "10:00", "10:30", some 7, false⟩ false).2.1.timers 1 = 0 :=
  ⟨(fire_discard_before_send [⟨1, "2025-01-10", "10:00", "10:30", some 7, false⟩]
      ⟨[(1, 50)], false, false⟩ ⟨1, "2025-01-10", "10:00", "10:30", some 7, false⟩ false rfl).1,
   (fire_discard_before_send [⟨1, "2025-01-10", "10:00", "10:30", some 7, false⟩]
      ⟨[(1, 50)], false, false⟩ ⟨1, "2025-01-10", "10:00", "10:30", some 7, false⟩ false rfl).2.1,
   (fire_discard_before_send [⟨1, "2025-01-10", "10:00", "10:30", some 7, false⟩]
      ⟨[(1, 50)], false, false⟩ ⟨1, "2025-01-10", "10:00", "10:30", some 7, false⟩ false rfl).2.2.1⟩

theorem step_stopCalled_inv (s : SchedState) (op : SchedOp)
    (h : s.stopCalled = true → s.stopped = true ∧ s.timers = []) :
    (step s op).stopCalled = true → (step s op).stopped = true ∧ (step s op).timers = [] := by
  cases op with
  | schedule slot notifyAt now =>
    simp only [step, Schedule_fst]
    by_cases h1 : s.stopped
    · simpa [h1] using h
    · by_cases h2 : notifyAt - now ≤ 0 <;>
        · simp only [h1, h2, if_true, if_false, Bool.false_eq_true]
          intro hc
          rcases h hc with ⟨hs, _⟩
          simp [hs] at h1
  | cancel slotID =>
    simp only [step, Cancel]
    intro hc
    rcases h hc with ⟨hs, ht⟩
    exact ⟨hs, by simp [ht, eraseKey]⟩
  | fire slot deliveryOk =>
    simp only [step, handleNotification_fst]
    by_cases h1 : s.stopped
    · simpa [h1] using h
    · simp only [h1, if_false, Bool.false_eq_true]
      intro hc
      rcases h hc with ⟨hs, _⟩
      simp [hs] at h1
  | reschedulePending =>
    simp only [step, ReschedulePending]
    intro hc
    exact ⟨(h hc).1, by simp⟩
  | stop =>
    simp only [step, Stop]
    by_cases h1 : s.stopCalled
    · simpa [h1] using h
    · simp [h1]

theorem runFrom_stopCalled_inv (s : SchedState)
    (h : s.stopCalled = true → s.stopped = true ∧ s.timers = []) (ops : List SchedOp) :
    (runFrom s ops).stopCalled = true →
      (runFrom s ops).stopped = true ∧ (runFrom s ops).timers = [] := by
  induction ops generalizing s with
  | nil => exact h
  | cons op rest ih => exact ih (step s op) (step_stopCalled_inv s op h)

theorem step_stopped_mono (s : SchedState) (op : SchedOp) (h : s.stopped = true) :
    (step s op).stopped = true := by
  cases op with
  | schedule slot notifyAt now => simp [step, Schedule_fst, h]
  | cancel slotID => simp [step, Cancel, h]
  | fire slot deliveryOk => simp [step, handleNotification_fst, h]
  | reschedulePending => simp [step, ReschedulePending, h]
  | stop =>
    simp only [step, Stop]
    by_cases h1 : s.stopCalled <;> simp [h1, h]

theorem runFrom_stopped_mono (s : SchedState) (h : s.stopped = true) (ops : List SchedOp) :
    (runFrom s ops).stopped = true := by
  induction ops generalizing s with
  | nil => exact h
  | cons op rest ih => exact ih (step s op) (step_stopped_mono s op h)

/-- C9: `Stop` on any reachable scheduler state returns success, removes
every pending timer and marks the scheduler non-accepting; every subsequent
`Schedule` — after any further sequence of calls — fails with the
scheduler-stopped error; and a second `Stop` has no further effect and
still returns success. -/
theorem stop_idempotent_nonaccepting (ops ops₂ : List SchedOp) (slot : Slot)
    (notifyAt now : Int) :
    (Stop (run ops)).2 = none
    ∧ (Stop (run ops)).1.timers = []
    ∧ (Stop (run ops)).1.stopped = true
    ∧ (Schedule (runFrom (Stop (run ops)).1 ops₂) slot notifyAt now).2.1 =
        some "scheduler is stopped"
    ∧ Stop (Stop (run ops)).1 = ((Stop (run ops)).1, none) := by
  have hinv := runFrom_stopCalled_inv initSched (by intro hc; simp [initSched] at hc) ops
  by_cases h : (run ops).stopCalled
  · have hstate := hinv h
    have hstop : Stop (run ops) = (run ops, none) := by
      unfold Stop
      rw [if_pos h]
    rw [hstop]
    refine ⟨rfl, hstate.2, hstate.1, ?_, ?_⟩
    · exact Schedule_err_stopped _ slot notifyAt now (runFrom_stopped_mono _ hstate.1 ops₂)
    · unfold Stop
      rw [if_pos h]
  · have hstop : Stop (run ops) = (⟨[], true, true⟩, none) := by
      unfold Stop
      rw [if_neg h]
    rw [hstop]
    refine ⟨rfl, rfl, rfl, ?_, ?_⟩
    · exact Schedule_err_stopped _ slot notifyAt now (runFrom_stopped_mono _ rfl ops₂)
    · unfold Stop
      rw [if_pos rfl]

/-- C2: with one reserved-and-unnotified slot in the store (K = 1) and an
empty scheduler, the recovery entry point
`Service.ReschedulePendingNotifications` → `MemoryScheduler.ReschedulePending`
reports success but leaves 0 live timers, not K: it only clears the registry
and never queries `GetPendingNotifications` nor re-issues any `Schedule`. -/
theorem reschedule_drops_pending :
    (SQLite.GetPendingNotifications
        [⟨1, "2025-01-10", "10:00", "10:30", some 7, false⟩]).length = 1
    ∧ (Service.ReschedulePendingNotifications initSched).1.timers.length = 0
    ∧ (Service.ReschedulePendingNotifications initSched).2 = none
    ∧ (Service.ReschedulePendingNotifications ⟨[(3, 50), (4, 60)], false, false⟩).1.timers = [] := by
  decide

/-- C3: evaluation at the failing input — in the componentized scheduler the
fired timer for a reserved, unnotified slot delivers the reminder but never
marks the slot notified: the store is bit-for-bit unchanged, the trace
contains the delivery and no `markNotified` call, and the slot is still
returned by `GetPendingNotifications` afterwards, so recovery after a
restart re-schedules (and re-sends) it. -/
theorem fire_never_marks_notified :
    (fireTimer [⟨1, "2025-01-10", "10:00", "10:30", some 7, false⟩] ⟨[(1, 50)], false, false⟩
        ⟨1, "2025-01-10", "10:00", "10:30", some 7, false⟩ true).1 =
      [⟨1, "2025-01-10", "10:00", "10:30", some 7, false⟩]
    ∧ Action.deliver 7 (reminderText ⟨1, "2025-01-10", "10:00", "10:30", some 7, false⟩) ∈
        (fireTimer [⟨1, "2025-01-10", "10:00", "10:30", some 7, false⟩] ⟨[(1, 50)], false, false⟩
          ⟨1, "2025-01-10", "10:00", "10:30", some 7, false⟩ true).2.2
    ∧ ((fireTimer [⟨1, "2025-01-10", "10:00", "10:30", some 7, false⟩] ⟨[(1, 50)], false, false⟩
          ⟨1, "2025-01-10", "10:00", "10:30", some 7, false⟩ true).2.2.countP
        fun a => match a with | Action.markNotified _ => true | _ => false) = 0
    ∧ SQLite.GetPendingNotifications
        (fireTimer [⟨1, "2025-01-10", "10:00", "10:30", some 7, false⟩] ⟨[(1, 50)], false, false⟩
          ⟨1, "2025-01-10", "10:00", "10:30", some 7, false⟩ true).1 =
      [⟨1, "2025-01-10", "10:00", "10:30", some 7, false⟩] := by
  decide

end Memory

namespace App

/-- C4 counterexample: a concrete successful cancellation — slot 1 owned by
user 7 is cancelled by its owner, the store cancel succeeds — yet the call's
trace contains no scheduler `Cancel` at all, refuting "the Scheduler's
Cancel is always invoked for that slot identifier". -/
theorem cancel_no_scheduler_cancel :
    (App.CancelSlot [⟨1, "2025-01-10 10:00", "2025-01-10 10:30", some 7, some "u"⟩] 1 7).2 = none
    ∧ ((App.handleCancelCallback
          [⟨1, "2025-01-10 10:00", "2025-01-10 10:30", some 7, some "u"⟩] 1 7 99).2.countP
        fun a => match a with | Action.schedCancel _ => true | _ => false) = 0 := by
  decide

/-- C4 (amended): every call to the application-level cancel attempts the
Slot Store `Cancel`, and no Scheduler `Cancel` is ever invoked — this
application variant maintains no timer registry, so there is no scheduler
call in the cancel path at all. -/
theorem cancel_store_only (tbl : App.Table) (slotID userID chatID : Int) :
    Action.storeCancel slotID userID ∈ (App.handleCancelCallback tbl slotID userID chatID).2
    ∧ ((App.handleCancelCallback tbl slotID userID chatID).2.countP
        fun a => match a with | Action.schedCancel _ => true | _ => false) = 0 := by
  unfold handleCancelCallback
  cases hc : (App.CancelSlot tbl slotID userID).2 <;>
    simp [hc, List.countP_cons]

end App

namespace Service

/-- C8: the booking service calls the scheduler's `Schedule` only when the
store's `Reserve` returned ok (a `schedSchedule` in the trace implies the
reserve succeeded); and when the reserve succeeded but `Schedule` fails
because the scheduler is stopped, the reservation is not rolled back — the
final table is exactly the table after the reserve, the scheduler state is
untouched, and the caller is still told success. -/
theorem reserve_schedule_only_on_ok (tbl : SQLite.Table) (sch : Memory.SchedState)
    (slotID chatID now : Int) :
    ((∃ i t, Action.schedSchedule i t ∈ (ReserveSlot tbl sch slotID chatID now).trace) →
      (SQLite.ReserveSlot tbl slotID chatID).2 = none)
    ∧ ((SQLite.ReserveSlot tbl slotID chatID).2 = none → sch.stopped = true →
        ∀ slot, SQLite.GetSlotByID (SQLite.ReserveSlot tbl slotID chatID).1 slotID = some slot →
        ∀ t, parseDateTime (slot.date ++ " " ++ slot.startTime) = some t →
        (ReserveSlot tbl sch slotID chatID now).outcome = none
        ∧ (ReserveSlot tbl sch slotID chatID now).tbl = (SQLite.ReserveSlot tbl slotID chatID).1
        ∧ (ReserveSlot tbl sch slotID chatID now).sch = sch) := by
  cases hr : (SQLite.ReserveSlot tbl slotID chatID).2 with
  | some e =>
    constructor
    · intro hmem
      obtain ⟨i, t, hmem⟩ := hmem
      simp only [ReserveSlot, hr] at hmem
      simp at hmem
    · intro hok
      exact Option.noConfusion hok
  | none =>
    cases hg : SQLite.GetSlotByID (SQLite.ReserveSlot tbl slotID chatID).1 slotID with
    | none =>
      constructor
      · intro _
        rfl
      · intro _ _ slot hslot
        exact Option.noConfusion hslot
    | some slot =>
      cases hp : parseDateTime (slot.date ++ " " ++ slot.startTime) with
      | none =>
        constructor
        · intro _
          rfl
        · intro _ _ slot' hslot' t ht
          obtain rfl : slot = slot' := Option.some.inj hslot'
          exact Option.noConfusion (hp.symm.trans ht)
      | some notifyAt =>
        constructor
        · intro _
          rfl
        · intro _ hstopped slot' hslot' t ht
          obtain rfl : slot = slot' := Option.some.inj hslot'
          obtain rfl : notifyAt = t := Option.some.inj (hp.symm.trans ht)
          simp [ReserveSlot, hr, hg, hp, Memory.Schedule_fst, hstopped]

/-- Concrete run of C8: one free slot, scheduler already stopped — the
reserve succeeds, the schedule attempt fails, and the service still reports
success with the reservation kept. -/
theorem reserve_schedule_only_on_ok_witness :
    (SQLite.ReserveSlot [⟨1, "2025-01-10", "10:00", "10:30", none, false⟩] 1 7).2 = none
    ∧ (ReserveSlot [⟨1, "2025-01-10", "10:00", "10:30", none, false⟩] ⟨[], true, true⟩ 1 7 0).outcome
        = none
    ∧ (ReserveSlot [⟨1, "2025-01-10", "10:00", "10:30", none, false⟩] ⟨[], true, true⟩ 1 7 0).tbl
        = (SQLite.ReserveSlot [⟨1, "2025-01-10", "10:00", "10:30", none, false⟩] 1 7).1
    ∧ (ReserveSlot [⟨1, "2025-01-10", "10:00", "10:30", none, false⟩] ⟨[], true, true⟩ 1 7 0).sch
        = ⟨[], true, true⟩ := by
  have h := (reserve_schedule_only_on_ok
      [⟨1, "2025-01-10", "10:00", "10:30", none, false⟩] ⟨[], true, true⟩ 1 7 0).2
    (by decide) rfl ⟨1, "2025-01-10", "10:00", "10:30", some 7, false⟩ (by decide)
    1084765560 (by decide)
  exact ⟨by decide, h.1, h.2.1, h.2.2⟩

end Service

end QueueBot
